import Mathlib

/-!
Shallow embedding of the tool registry / dynamic dispatch loader of the
AI-Archive MCP server (`src/utils/toolLoader.js`).  JavaScript objects and
`Map`s are modelled as insertion-ordered association lists; JavaScript
truthiness of the string-valued fields checked by the validator is modelled
by comparison with the empty string, and an absent field or absent object by
`Option.none`.  Thrown exceptions are modelled with `Except String` carrying
the thrown message; `console.error` log lines are collected in lists of
strings, in emission order.  The loader's mutable instance fields are
threaded explicitly as a `LoaderState`.
-/

deriving instance DecidableEq for Except

namespace ToolRegistry

/-- Handlers are opaque function values; only their identity matters to the
registry, so they are modelled by an abstract tag. -/
abbrev Handler := Nat

/-- JSON-schema-shaped `inputSchema` of a tool definition.  `type` is the
string-valued field (`""` models a missing or falsy value); `properties` is
an optional mapping from property name to a schema tag. -/
structure InputSchema where
  type : String
  properties : Option (List (String × String))
deriving DecidableEq

/-- A tool definition as consumed by the loader: `name`, `description` and
`inputSchema` are the three required fields checked by
`validateToolDefinition` (`""` / `none` model missing or falsy values). -/
structure ToolDefinition where
  name : String
  description : String
  inputSchema : Option InputSchema
deriving DecidableEq

/-- Per-provider entry of `enabledModules` in the configuration document. -/
structure ModuleConfig where
  enabled : Bool
  description : Option String
deriving DecidableEq

/-- The parsed configuration document (`tools-config.json`). -/
structure Config where
  enabledModules : List (String × ModuleConfig)
  moduleLoadOrder : Option (List String)
deriving DecidableEq

/-- The value stored in `loadedModules` for a successfully loaded module
(the opaque `instance` field is omitted: the registry never inspects it). -/
structure LoadedModule where
  tools : List ToolDefinition
  handlers : List (String × Handler)
deriving DecidableEq

/-- The mutable fields of a `ToolLoader` instance. -/
structure LoaderState where
  config : Config
  loadedModules : List (String × LoadedModule)
  allTools : List ToolDefinition
  allHandlers : List (String × Handler)
deriving DecidableEq

/-- Observable behaviour of one provider module: whether `fs.existsSync`
finds its file, whether the dynamic import yields a default export, and
what `getToolDefinitions` / `getToolHandlers` return (`Except.error` models
a throw, carrying the thrown message). -/
structure ProviderBehavior where
  pathExists : Bool
  hasDefault : Bool
  defs : Except String (List ToolDefinition)
  handlers : Except String (List (String × Handler))
deriving DecidableEq

/-- The environment the loader runs in: module name to behaviour. -/
abbrev Env := String → ProviderBehavior

/-- Property lookup on a JavaScript object / `Map.get`: first match wins. -/
def alookup {α : Type} (m : List (String × α)) (k : String) : Option α :=
  match m with
  | [] => none
  | p :: rest => if p.1 == k then some p.2 else alookup rest k

/-- Key sequence of an association list (`Object.keys`). -/
def keysOf {α : Type} (m : List (String × α)) : List String :=
  m.map (fun p => p.1)

/-- JavaScript property assignment / `Map.set`: overwrite an existing key in
place, otherwise append the new key at the end. -/
def mapSet {α : Type} (m : List (String × α)) (k : String) (v : α) :
    List (String × α) :=
  if m.any (fun p => p.1 == k) then
    m.map (fun p => if p.1 == k then (k, v) else p)
  else m ++ [(k, v)]

/-- `Object.assign(target, source)`: assign every key of `source` into the
accumulated mapping, in order. -/
def assignAll (hs : List (String × Handler)) (m : List (String × Handler)) :
    List (String × Handler) :=
  hs.foldl (fun acc p => mapSet acc p.1 p.2) m

/-- `Array.prototype.join(sep)` on a list of strings. -/
def joinWith (sep : String) : List String → String
  | [] => ""
  | [x] => x
  | x :: y :: rest => x ++ sep ++ joinWith sep (y :: rest)

/-- Concatenation of the blocks `f x` in list order. -/
def concatMap {α β : Type} (f : α → List β) : List α → List β
  | [] => []
  | x :: rest => f x ++ concatMap f rest

/-- Fixed lookup path of the configuration document, relative to the running
module. -/
def configPath : String := "../config/tools-config.json"

/-- Hard-coded fallback configuration used when the configuration document
cannot be read or parsed. -/
def defaultConfig : Config :=
  { enabledModules :=
      [ ("search", { enabled := true, description := none })
      , ("papers", { enabled := true, description := none })
      , ("agents", { enabled := true, description := none })
      , ("reviews", { enabled := true, description := none })
      , ("citations", { enabled := true, description := none })
      , ("marketplace", { enabled := true, description := none })
      , ("users", { enabled := true, description := none }) ]
  , moduleLoadOrder :=
      some ["search", "papers", "agents", "reviews", "citations",
            "marketplace", "users"] }

/-- Warning emitted by `loadConfig` when falling back to the defaults. -/
def configWarnLine : String :=
  "⚠️ Warning: Could not load tools config from " ++ configPath ++
    ". Using defaults."

/-- `ToolLoader.loadConfig`: the configuration source is `some c` when the
file is readable and parses to `c`, and `none` on a read or parse failure.
Returns the resulting configuration together with the emitted log lines. -/
def loadConfig (source : Option Config) : Config × List String :=
  match source with
  | some c => (c, [])
  | none => (defaultConfig, [configWarnLine])

/-- Load order: the explicit `moduleLoadOrder`, falling back to the key
order of `enabledModules`. -/
def moduleOrder (c : Config) : List String :=
  match c.moduleLoadOrder with
  | some l => l
  | none => keysOf c.enabledModules

/-- Log line for a skipped module. -/
def skipLine (n : String) : String :=
  "⏭️ Skipping disabled module: " ++ n

/-- Log line for a successfully loaded module. -/
def loadedLine (n : String) (k : Nat) : String :=
  "✅ Loaded module: " ++ n ++ " (" ++ toString k ++ " tools)"

/-- Log line for a failed module load. -/
def failLogLine (n msg : String) : String :=
  "❌ Failed to load module " ++ n ++ ": " ++ msg

/-- Log line emitted when production mode continues past a failure. -/
def continuingLine (n : String) : String :=
  "⚠️ Continuing without " ++ n ++ " module in production mode"

/-- First log line of `loadAllModules`. -/
def startLine : String := "🔧 Loading MCP server modules..."

/-- Warning naming the tools of a module that have no handler. -/
def missingHandlersLine (n : String) (ms : List String) : String :=
  "⚠️ Warning: " ++ n ++ " module missing handlers for tools: " ++
    joinWith ", " ms

/-- Warning naming the handlers of a module that match no tool. -/
def extraHandlersLine (n : String) (ms : List String) : String :=
  "⚠️ Warning: " ++ n ++ " module has extra handlers: " ++ joinWith ", " ms

/-- Conventional module path derived from the module name. -/
def modulePath (n : String) : String :=
  "../tools/" ++ n ++ "/index.js"

/-- Message of the error rethrown by `loadModule`'s catch block. -/
def wrapFailMsg (n msg : String) : String :=
  "Failed to load module " ++ n ++ ": " ++ msg

/-- Warnings produced by the per-provider contract check in `loadModule`. -/
def contractWarnings (n : String) (toolNames handlerNames : List String) :
    List String :=
  let missingHandlers := toolNames.filter (fun nm => !(handlerNames.contains nm))
  let extraHandlers := handlerNames.filter (fun nm => !(toolNames.contains nm))
  (if missingHandlers.isEmpty then [] else [missingHandlersLine n missingHandlers]) ++
    (if extraHandlers.isEmpty then [] else [extraHandlersLine n extraHandlers])

/-- State mutation performed by a successful `loadModule`: store the module
reference and add its tools and handlers to the global collections. -/
def afterLoad (st : LoaderState) (n : String) (ds : List ToolDefinition)
    (hs : List (String × Handler)) : LoaderState :=
  { st with
    loadedModules := mapSet st.loadedModules n { tools := ds, handlers := hs }
    allTools := st.allTools ++ ds
    allHandlers := assignAll hs st.allHandlers }

/-- `ToolLoader.loadModule`, with the loader's mutable state threaded
explicitly.  Every throwing step of the source precedes every state
mutation, so each error exit carries the state unchanged.  Result: thrown
error or unit, the state after the call, and the warning log lines. -/
def loadModuleSt (env : Env) (n : String) (st : LoaderState) :
    Except String Unit × LoaderState × List String :=
  let b := env n
  if b.pathExists = false then
    (.error ("Module file not found: " ++ modulePath n), st, [])
  else if b.hasDefault = false then
    (.error (wrapFailMsg n ("Module " ++ n ++ " does not export a default class")),
      st, [])
  else
    match b.defs with
    | .error e => (.error (wrapFailMsg n e), st, [])
    | .ok toolDefinitions =>
      match b.handlers with
      | .error e => (.error (wrapFailMsg n e), st, [])
      | .ok toolHandlers =>
        (.ok (), afterLoad st n toolDefinitions toolHandlers,
          contractWarnings n (toolDefinitions.map (fun t => t.name))
            (keysOf toolHandlers))

/-- `ToolLoader.getModuleToolCount`. -/
def getModuleToolCount (st : LoaderState) (n : String) : Nat :=
  match alookup st.loadedModules n with
  | some md => md.tools.length
  | none => 0

/-- One iteration of the `loadAllModules` loop for module name `n`: skip
when disabled or unconfigured, otherwise attempt the load and apply the
environment-sensitive failure policy (`prodMode` models
`process.env.NODE_ENV === "production"`). -/
def processName (env : Env) (prodMode : Bool) (n : String) (st : LoaderState) :
    Except String Unit × LoaderState × List String :=
  match alookup st.config.enabledModules n with
  | none => (.ok (), st, [skipLine n])
  | some mc =>
    if mc.enabled = false then (.ok (), st, [skipLine n])
    else
      match (loadModuleSt env n st).1 with
      | .ok _ =>
        (.ok (), (loadModuleSt env n st).2.1,
          (loadModuleSt env n st).2.2 ++
            [loadedLine n (getModuleToolCount (loadModuleSt env n st).2.1 n)])
      | .error e =>
        if prodMode then
          (.ok (), (loadModuleSt env n st).2.1,
            [failLogLine n e, continuingLine n])
        else (.error e, (loadModuleSt env n st).2.1, [failLogLine n e])

/-- The `loadAllModules` loop over the remaining module names. -/
def go (env : Env) (prodMode : Bool) : List String → LoaderState →
    Except String Unit × LoaderState × List String
  | [], st => (.ok (), st, [])
  | n :: rest, st =>
    match (processName env prodMode n st).1 with
    | .ok _ =>
      ((go env prodMode rest (processName env prodMode n st).2.1).1,
        (go env prodMode rest (processName env prodMode n st).2.1).2.1,
        (processName env prodMode n st).2.2 ++
          (go env prodMode rest (processName env prodMode n st).2.1).2.2)
    | .error e =>
      (.error e, (processName env prodMode n st).2.1,
        (processName env prodMode n st).2.2)

/-- Final summary log line of a completed `loadAllModules`. -/
def summaryLine (st : LoaderState) : String :=
  "🚀 MCP Server initialized with " ++ toString st.allTools.length ++
    " tools from " ++ toString st.loadedModules.length ++ " modules"

/-- `ToolLoader.loadAllModules`: iterate the configured order; on success
the loader reaches the loaded state and reports the final summary; on a
propagated error it never does. -/
def loadAllModules (env : Env) (prodMode : Bool) (st : LoaderState) :
    Except String Unit × LoaderState × List String :=
  match (go env prodMode (moduleOrder st.config) st).1 with
  | .ok _ =>
    (.ok (), (go env prodMode (moduleOrder st.config) st).2.1,
      startLine :: (go env prodMode (moduleOrder st.config) st).2.2 ++
        [summaryLine (go env prodMode (moduleOrder st.config) st).2.1])
  | .error e =>
    (.error e, (go env prodMode (moduleOrder st.config) st).2.1,
      startLine :: (go env prodMode (moduleOrder st.config) st).2.2)

/-- A freshly constructed `ToolLoader` whose `loadConfig` produced `c`. -/
def initialState (c : Config) : LoaderState :=
  { config := c, loadedModules := [], allTools := [], allHandlers := [] }

/-- The ordered tool catalog served to the tool-listing request. -/
def listTools (st : LoaderState) : List ToolDefinition :=
  st.allTools

/-- `ToolLoader.getHandlerByName` (`undefined` is `none`). -/
def getHandlerByName (st : LoaderState) (n : String) : Option Handler :=
  alookup st.allHandlers n

/-- Record returned by `getModuleInfo`. -/
structure ModuleInfo where
  name : String
  enabled : Bool
  toolCount : Nat
  tools : List String
  description : String
deriving DecidableEq

/-- Truthy string or the fallback (`x || d` on an optional string). -/
def strOrDefault (x : Option String) (d : String) : String :=
  match x with
  | some s => if s == "" then d else s
  | none => d

/-- `ToolLoader.getModuleInfo`: note the hard-coded `enabled: true`. -/
def getModuleInfo (st : LoaderState) (n : String) : Option ModuleInfo :=
  match alookup st.loadedModules n with
  | none => none
  | some md =>
    some
      { name := n
      , enabled := true
      , toolCount := md.tools.length
      , tools := md.tools.map (fun t => t.name)
      , description :=
          strOrDefault
            ((alookup st.config.enabledModules n).bind (fun mc => mc.description))
            "No description available" }

/-- Per-module entry of `getStats().modules`. -/
structure ModuleStats where
  toolCount : Nat
  enabled : Bool
deriving DecidableEq

/-- Record returned by `getStats`. -/
structure Stats where
  totalModules : Nat
  totalTools : Nat
  totalHandlers : Nat
  modules : List (String × ModuleStats)
deriving DecidableEq

/-- The `enabled` flag reported for a module name
(`config.enabledModules[n]?.enabled || false`). -/
def enabledIn (c : Config) (n : String) : Bool :=
  match alookup c.enabledModules n with
  | some mc => mc.enabled
  | none => false

/-- `ToolLoader.getStats`. -/
def getStats (st : LoaderState) : Stats :=
  { totalModules := st.loadedModules.length
  , totalTools := st.allTools.length
  , totalHandlers := (keysOf st.allHandlers).length
  , modules :=
      st.loadedModules.map (fun p =>
        (p.1, { toolCount := p.2.tools.length
              , enabled := enabledIn st.config p.1 })) }

/-- Log line emitted by `saveConfig` when the write fails with message
`e`. -/
def saveFailLine (e : String) : String :=
  "❌ Failed to save config: " ++ e

/-- `ToolLoader.saveConfig`: `writeErr` is `none` when `fs.writeFileSync`
succeeds and `some e` when it throws `e`.  Returns the success boolean and
the emitted log lines; the exception is never propagated. -/
def saveConfig (writeErr : Option String) : Bool × List String :=
  match writeErr with
  | none => (true, [])
  | some e => (false, [saveFailLine e])

/-- Overwrite the `enabled` flag of the entry for `n`. -/
def setEnabled (m : List (String × ModuleConfig)) (n : String) (b : Bool) :
    List (String × ModuleConfig) :=
  m.map (fun p => if p.1 == n then (p.1, { p.2 with enabled := b }) else p)

/-- `ToolLoader.updateModuleConfig` (the spec's `setProviderEnabled`): if
the module has a config entry, update it in memory, call `saveConfig`
(whose boolean result the source discards) and return `true`; otherwise
return `false`. -/
def updateModuleConfig (writeErr : Option String) (st : LoaderState)
    (n : String) (b : Bool) : Bool × LoaderState × List String :=
  match alookup st.config.enabledModules n with
  | some _ =>
    (true,
      { st with config := { st.config with
          enabledModules := setEnabled st.config.enabledModules n b } },
      (saveConfig writeErr).2)
  | none => (false, st, [])

/-- Required-field names checked by `validateToolDefinition`. -/
def requiredFields : List String := ["name", "description", "inputSchema"]

/-- Truthiness test `!tool[field]` for the three required fields. -/
def fieldMissing (t : ToolDefinition) (f : String) : Bool :=
  if f == "name" then t.name == ""
  else if f == "description" then t.description == ""
  else if f == "inputSchema" then t.inputSchema.isNone
  else false

/-- `ToolLoader.validateToolDefinition`.  When `inputSchema` is absent the
first check already throws, so the `none` branch of the second check is
unreachable. -/
def validateToolDefinition (t : ToolDefinition) : Except String Unit :=
  let missingFields := requiredFields.filter (fieldMissing t)
  if missingFields.isEmpty = false then
    .error ("Tool definition missing required fields: " ++
      joinWith ", " missingFields)
  else
    match t.inputSchema with
    | none => .ok ()
    | some s =>
      if (s.type == "") || s.properties.isNone then
        .error ("Tool " ++ t.name ++ " has invalid inputSchema")
      else .ok ()

/-- `ToolLoader.validateAllTools` (the spec's `validateAll`). -/
def validateAllTools (st : LoaderState) : Except String Unit :=
  let errors := st.allTools.filterMap (fun t =>
    match validateToolDefinition t with
    | .ok _ => none
    | .error m => some (t.name ++ ": " ++ m))
  if errors.isEmpty then .ok ()
  else .error ("Tool validation errors:\n" ++ joinWith "\n" errors)

/-! ### Association-list lemmas -/

theorem alookup_append {α : Type} (m m' : List (String × α)) (k : String) :
    alookup (m ++ m') k =
      match alookup m k with
      | some v => some v
      | none => alookup m' k := by
  induction m with
  | nil => simp [alookup]
  | cons p rest ih =>
    by_cases h : (p.1 == k) = true <;> simp [alookup, h, ih]

theorem alookup_eq_none_of_not_any {α : Type} (m : List (String × α)) (k : String)
    (h : m.any (fun p => p.1 == k) = false) : alookup m k = none := by
  induction m with
  | nil => rfl
  | cons p rest ih =>
    simp only [List.any_cons, Bool.or_eq_false_iff] at h
    simp [alookup, h.1, ih h.2]

theorem alookup_map_overwrite_hit {α : Type} (m : List (String × α)) (a : String) (v : α)
    (hmem : m.any (fun p => p.1 == a) = true) :
    alookup (m.map (fun p => if p.1 == a then (a, v) else p)) a = some v := by
  induction m with
  | nil => simp at hmem
  | cons p rest ih =>
    by_cases h : (p.1 == a) = true
    · show alookup ((if p.1 == a then (a, v) else p) ::
        rest.map (fun p => if p.1 == a then (a, v) else p)) a = some v
      rw [if_pos h]
      show (if a == a then some v else _) = some v
      rw [if_pos (beq_self_eq_true a)]
    · have hrest : rest.any (fun p => p.1 == a) = true := by
        simp only [List.any_cons, h, Bool.false_or] at hmem
        simpa using hmem
      show alookup ((if p.1 == a then (a, v) else p) ::
        rest.map (fun p => if p.1 == a then (a, v) else p)) a = some v
      rw [if_neg h]
      show (if p.1 == a then some p.2 else _) = some v
      rw [if_neg h]
      exact ih hrest

theorem alookup_map_overwrite_miss {α : Type} (m : List (String × α)) (a k : String) (v : α)
    (hne : (a == k) = false) :
    alookup (m.map (fun p => if p.1 == a then (a, v) else p)) k = alookup m k := by
  induction m with
  | nil => rfl
  | cons p rest ih =>
    show alookup ((if p.1 == a then (a, v) else p) ::
      rest.map (fun p => if p.1 == a then (a, v) else p)) k =
        (if p.1 == k then some p.2 else alookup rest k)
    by_cases h : (p.1 == a) = true
    · have hpa : p.1 = a := by simpa using h
      have hpk : (p.1 == k) = false := by rw [hpa]; exact hne
      rw [if_pos h]
      show (if a == k then some v else _) = _
      rw [if_neg (by simp [hne]), if_neg (by simp [hpk])]
      exact ih
    · rw [if_neg h]
      show (if p.1 == k then some p.2 else _) = _
      by_cases hpk : (p.1 == k) = true
      · rw [if_pos hpk, if_pos hpk]
      · rw [if_neg hpk, if_neg hpk]
        exact ih

theorem alookup_mapSet {α : Type} (m : List (String × α)) (a k : String) (v : α) :
    alookup (mapSet m a v) k = if a == k then some v else alookup m k := by
  unfold mapSet
  by_cases hany : (m.any fun p => p.1 == a) = true
  · rw [if_pos hany]
    by_cases hak : (a == k) = true
    · have hk : a = k := by simpa using hak
      subst hk
      rw [if_pos hak]
      exact alookup_map_overwrite_hit m a v hany
    · have hak' : (a == k) = false := by simpa using hak
      rw [if_neg hak]
      exact alookup_map_overwrite_miss m a k v hak'
  · have hany' : (m.any fun p => p.1 == a) = false := Bool.eq_false_iff.mpr hany
    rw [if_neg hany, alookup_append]
    by_cases hak : (a == k) = true
    · have hk : a = k := by simpa using hak
      subst hk
      rw [if_pos hak, alookup_eq_none_of_not_any m a hany']
      show (if a == a then some v else _) = some v
      rw [if_pos (beq_self_eq_true a)]
    · have hak' : (a == k) = false := by simpa using hak
      rw [if_neg hak]
      cases hm : alookup m k with
      | some v' => rfl
      | none =>
        show alookup [(a, v)] k = none
        show (if a == k then some v else alookup [] k) = none
        rw [if_neg hak]
        rfl

theorem alookup_assignAll_not_mem (hs : List (String × Handler))
    (m : List (String × Handler)) (k : String) (hk : k ∉ keysOf hs) :
    alookup (assignAll hs m) k = alookup m k := by
  induction hs generalizing m with
  | nil => rfl
  | cons p rest ih =>
    have hk1 : (p.1 == k) = false := by
      have : p.1 ≠ k := by
        intro hc
        exact hk (by simp [keysOf, hc])
      simpa using this
    have hk2 : k ∉ keysOf rest := by
      intro hc
      exact hk (by simp [keysOf] at hc ⊢; exact Or.inr hc)
    have hstep : assignAll (p :: rest) m = assignAll rest (mapSet m p.1 p.2) := rfl
    rw [hstep, ih (mapSet m p.1 p.2) hk2, alookup_mapSet, if_neg (by simp [hk1])]

theorem mapSet_of_not_mem {α : Type} (m : List (String × α)) (k : String) (v : α)
    (h : k ∉ keysOf m) : mapSet m k v = m ++ [(k, v)] := by
  unfold mapSet
  have hany : (m.any fun p => p.1 == k) = false := by
    rw [Bool.eq_false_iff]
    intro hc
    rcases List.any_eq_true.mp hc with ⟨p, hp, hbeq⟩
    have hpk : p.1 = k := by simpa using hbeq
    refine h ?_
    unfold keysOf
    rw [← hpk]
    exact List.mem_map_of_mem (fun q => q.1) hp
  rw [if_neg (by simp [hany])]

theorem joinWith_mem_split (sep : String) (l : List String) (e : String)
    (he : e ∈ l) : ∃ p q, joinWith sep l = p ++ e ++ q := by
  induction l with
  | nil => cases he
  | cons x rest ih =>
    cases rest with
    | nil =>
      have hx : e = x := by simpa using he
      subst hx
      exact ⟨"", "", by simp [joinWith, String.empty_append, String.append_empty]⟩
    | cons y rest' =>
      rcases List.mem_cons.mp he with hx | hmem
      · subst hx
        exact ⟨"", sep ++ joinWith sep (y :: rest'),
          by simp [joinWith, String.empty_append, String.append_assoc]⟩
      · rcases ih hmem with ⟨p, q, hj⟩
        refine ⟨x ++ sep ++ p, q, ?_⟩
        show x ++ sep ++ joinWith sep (y :: rest') = _
        rw [hj]
        simp [String.append_assoc]

/-! ### Provider-level abbreviations used by the loader lemmas -/

/-- Whether the load of a provider succeeds: its file exists, its module has
a default export, and neither producing operation throws. -/
def loadOk (b : ProviderBehavior) : Bool :=
  b.pathExists && b.hasDefault &&
    (match b.defs with | .ok _ => true | .error _ => false) &&
    (match b.handlers with | .ok _ => true | .error _ => false)

/-- The error message with which `loadModule` fails, by failure cause. -/
def loadErrMsg (b : ProviderBehavior) (n : String) : String :=
  if b.pathExists = false then "Module file not found: " ++ modulePath n
  else if b.hasDefault = false then
    wrapFailMsg n ("Module " ++ n ++ " does not export a default class")
  else
    match b.defs with
    | .error e => wrapFailMsg n e
    | .ok _ =>
      match b.handlers with
      | .error e => wrapFailMsg n e
      | .ok _ => ""

/-- The tool definitions a provider returns (empty if it throws). -/
def providerDefs (env : Env) (n : String) : List ToolDefinition :=
  match (env n).defs with
  | .ok ds => ds
  | .error _ => []

/-- The handler mapping a provider returns (empty if it throws). -/
def providerHandlers (env : Env) (n : String) : List (String × Handler) :=
  match (env n).handlers with
  | .ok hs => hs
  | .error _ => []

/-- The catalog mutation a successful load of `n` performs. -/
def applyLoad (env : Env) (n : String) (st : LoaderState) : LoaderState :=
  afterLoad st n (providerDefs env n) (providerHandlers env n)

/-- The state reached by successfully loading every name in order. -/
def loadFold (env : Env) (names : List String) (st : LoaderState) :
    LoaderState :=
  names.foldl (fun s n => applyLoad env n s) st

/-- The merged handler mapping contributed by the names in order. -/
def handlersUnion (env : Env) (names : List String)
    (m : List (String × Handler)) : List (String × Handler) :=
  names.foldl (fun acc n => assignAll (providerHandlers env n) acc) m

/-! ### Characterization of `loadModuleSt` -/

theorem loadModuleSt_ok (env : Env) (n : String) (st : LoaderState)
    (h : loadOk (env n) = true) :
    loadModuleSt env n st =
      (.ok (), applyLoad env n st,
        contractWarnings n ((providerDefs env n).map (fun t => t.name))
          (keysOf (providerHandlers env n))) := by
  unfold loadOk at h
  unfold loadModuleSt applyLoad afterLoad providerDefs providerHandlers
  cases h1 : (env n).pathExists <;> cases h2 : (env n).hasDefault <;>
    cases h3 : (env n).defs <;> cases h4 : (env n).handlers <;>
      simp [h1, h2, h3, h4] at h ⊢

theorem loadModuleSt_fail (env : Env) (n : String) (st : LoaderState)
    (h : loadOk (env n) = false) :
    loadModuleSt env n st = (.error (loadErrMsg (env n) n), st, []) := by
  unfold loadOk at h
  unfold loadModuleSt loadErrMsg
  cases h1 : (env n).pathExists <;> cases h2 : (env n).hasDefault <;>
    cases h3 : (env n).defs <;> cases h4 : (env n).handlers <;>
      simp [h1, h2, h3, h4] at h ⊢

theorem loadModuleSt_fail_state (env : Env) (n : String) (st : LoaderState)
    (e : String) (h : (loadModuleSt env n st).1 = .error e) :
    (loadModuleSt env n st).2.1 = st := by
  cases hok : loadOk (env n) with
  | true => rw [loadModuleSt_ok env n st hok] at h; cases h
  | false => rw [loadModuleSt_fail env n st hok]

theorem loadModuleSt_state_config (env : Env) (n : String) (st : LoaderState) :
    (loadModuleSt env n st).2.1.config = st.config := by
  cases hok : loadOk (env n) with
  | true => rw [loadModuleSt_ok env n st hok]; rfl
  | false => rw [loadModuleSt_fail env n st hok]

/-! ### Characterization of `processName` -/

theorem processName_skip (env : Env) (pm : Bool) (n : String) (st : LoaderState)
    (h : enabledIn st.config n = false) :
    processName env pm n st = (.ok (), st, [skipLine n]) := by
  unfold enabledIn at h
  unfold processName
  cases hmc : alookup st.config.enabledModules n with
  | none => rfl
  | some mc =>
    rw [hmc] at h
    have h' : mc.enabled = false := h
    simp [h']

theorem processName_load_ok (env : Env) (pm : Bool) (n : String)
    (st : LoaderState) (he : enabledIn st.config n = true)
    (hok : loadOk (env n) = true) :
    processName env pm n st =
      (.ok (), applyLoad env n st,
        contractWarnings n ((providerDefs env n).map (fun t => t.name))
          (keysOf (providerHandlers env n)) ++
          [loadedLine n (getModuleToolCount (applyLoad env n st) n)]) := by
  unfold enabledIn at he
  unfold processName
  cases hmc : alookup st.config.enabledModules n with
  | none => rw [hmc] at he; cases he
  | some mc =>
    rw [hmc] at he
    have he' : mc.enabled = true := he
    rw [loadModuleSt_ok env n st hok]
    simp [he']

theorem processName_load_fail_prod (env : Env) (n : String) (st : LoaderState)
    (he : enabledIn st.config n = true) (hok : loadOk (env n) = false) :
    processName env true n st =
      (.ok (), st, [failLogLine n (loadErrMsg (env n) n), continuingLine n]) := by
  unfold enabledIn at he
  unfold processName
  cases hmc : alookup st.config.enabledModules n with
  | none => rw [hmc] at he; cases he
  | some mc =>
    rw [hmc] at he
    have he' : mc.enabled = true := he
    rw [loadModuleSt_fail env n st hok]
    simp [he']

theorem processName_load_fail_nonprod (env : Env) (n : String)
    (st : LoaderState) (he : enabledIn st.config n = true)
    (hok : loadOk (env n) = false) :
    processName env false n st =
      (.error (loadErrMsg (env n) n), st,
        [failLogLine n (loadErrMsg (env n) n)]) := by
  unfold enabledIn at he
  unfold processName
  cases hmc : alookup st.config.enabledModules n with
  | none => rw [hmc] at he; cases he
  | some mc =>
    rw [hmc] at he
    have he' : mc.enabled = true := he
    rw [loadModuleSt_fail env n st hok]
    simp [he']

theorem processName_state_config (env : Env) (pm : Bool) (n : String)
    (st : LoaderState) : (processName env pm n st).2.1.config = st.config := by
  cases he : enabledIn st.config n with
  | false => rw [processName_skip env pm n st he]
  | true =>
    cases hok : loadOk (env n) with
    | true => rw [processName_load_ok env pm n st he hok]; rfl
    | false =>
      cases pm
      · rw [processName_load_fail_nonprod env n st he hok]
      · rw [processName_load_fail_prod env n st he hok]

/-! ### Characterization of the loading loop -/

theorem loadFold_nil (env : Env) (st : LoaderState) : loadFold env [] st = st :=
  rfl

theorem loadFold_cons (env : Env) (n : String) (rest : List String)
    (st : LoaderState) :
    loadFold env (n :: rest) st = loadFold env rest (applyLoad env n st) :=
  rfl

theorem loadFold_config (env : Env) (names : List String) (st : LoaderState) :
    (loadFold env names st).config = st.config := by
  induction names generalizing st with
  | nil => rfl
  | cons n rest ih => rw [loadFold_cons]; exact ih (applyLoad env n st)

theorem loadFold_allTools (env : Env) (names : List String) (st : LoaderState) :
    (loadFold env names st).allTools =
      st.allTools ++ concatMap (providerDefs env) names := by
  induction names generalizing st with
  | nil => simp [loadFold_nil, concatMap]
  | cons n rest ih =>
    rw [loadFold_cons]
    rw [ih (applyLoad env n st)]
    show (st.allTools ++ providerDefs env n) ++ _ = _
    rw [List.append_assoc]
    rfl

theorem loadFold_allHandlers (env : Env) (names : List String)
    (st : LoaderState) :
    (loadFold env names st).allHandlers =
      handlersUnion env names st.allHandlers := by
  induction names generalizing st with
  | nil => rfl
  | cons n rest ih =>
    rw [loadFold_cons]
    rw [ih (applyLoad env n st)]
    rfl

theorem loadFold_append_names (env : Env) (l1 l2 : List String)
    (st : LoaderState) :
    loadFold env (l1 ++ l2) st = loadFold env l2 (loadFold env l1 st) := by
  unfold loadFold
  rw [List.foldl_append]

theorem go_nil (env : Env) (pm : Bool) (st : LoaderState) :
    go env pm [] st = (.ok (), st, []) := rfl

theorem go_cons_ok (env : Env) (pm : Bool) (n : String) (rest : List String)
    (st st' : LoaderState) (ls : List String)
    (h : processName env pm n st = (.ok (), st', ls)) :
    go env pm (n :: rest) st =
      ((go env pm rest st').1, (go env pm rest st').2.1,
        ls ++ (go env pm rest st').2.2) := by
  simp only [go]
  rw [h]

theorem go_cons_error (env : Env) (pm : Bool) (n : String) (rest : List String)
    (st st' : LoaderState) (e : String) (ls : List String)
    (h : processName env pm n st = (.error e, st', ls)) :
    go env pm (n :: rest) st = (.error e, st', ls) := by
  simp only [go]
  rw [h]

theorem go_state_config (env : Env) (pm : Bool) (names : List String)
    (st : LoaderState) : (go env pm names st).2.1.config = st.config := by
  induction names generalizing st with
  | nil => rfl
  | cons n rest ih =>
    have hp := processName_state_config env pm n st
    rcases hpn : processName env pm n st with ⟨r, st', ls⟩
    rw [hpn] at hp
    have hp' : st'.config = st.config := hp
    cases r with
    | ok u =>
      cases u
      rw [go_cons_ok env pm n rest st st' ls hpn]
      show (go env pm rest st').2.1.config = st.config
      rw [ih st', hp']
    | error e =>
      rw [go_cons_error env pm n rest st st' e ls hpn]
      exact hp'

theorem go_append (env : Env) (pm : Bool) (l1 l2 : List String)
    (st : LoaderState) (h : (go env pm l1 st).1 = .ok ()) :
    go env pm (l1 ++ l2) st =
      ((go env pm l2 (go env pm l1 st).2.1).1,
        (go env pm l2 (go env pm l1 st).2.1).2.1,
        (go env pm l1 st).2.2 ++ (go env pm l2 (go env pm l1 st).2.1).2.2) := by
  induction l1 generalizing st with
  | nil => simp [go_nil]
  | cons n l1' ih =>
    rcases hpn : processName env pm n st with ⟨r, st', ls⟩
    cases r with
    | error e =>
      rw [go_cons_error env pm n l1' st st' e ls hpn] at h
      cases h
    | ok u =>
      cases u
      rw [go_cons_ok env pm n l1' st st' ls hpn] at h
      have h' : (go env pm l1' st').1 = .ok () := h
      rw [List.cons_append,
          go_cons_ok env pm n (l1' ++ l2) st st' ls hpn,
          go_cons_ok env pm n l1' st st' ls hpn,
          ih st' h']
      simp [List.append_assoc]

theorem go_allOk (env : Env) (pm : Bool) (names : List String)
    (st : LoaderState)
    (h : ∀ m ∈ names, enabledIn st.config m = true ∧ loadOk (env m) = true) :
    (go env pm names st).1 = .ok () ∧
      (go env pm names st).2.1 = loadFold env names st := by
  induction names generalizing st with
  | nil => exact ⟨rfl, rfl⟩
  | cons n rest ih =>
    have hn := h n (List.mem_cons_self n rest)
    have hpn := processName_load_ok env pm n st hn.1 hn.2
    rw [go_cons_ok env pm n rest st _ _ hpn]
    have hrest : ∀ m ∈ rest,
        enabledIn (applyLoad env n st).config m = true ∧ loadOk (env m) = true := by
      intro m hm
      have hcfg : (applyLoad env n st).config = st.config := rfl
      rw [hcfg]
      exact h m (List.mem_cons_of_mem n hm)
    rcases ih (applyLoad env n st) hrest with ⟨h1, h2⟩
    exact ⟨h1, by rw [h2]; rfl⟩

theorem go_skip_middle (env : Env) (pm : Bool) (n : String)
    (pre post : List String) (st : LoaderState)
    (h : enabledIn st.config n = false) :
    (go env pm (pre ++ n :: post) st).1 = (go env pm (pre ++ post) st).1 ∧
      (go env pm (pre ++ n :: post) st).2.1 =
        (go env pm (pre ++ post) st).2.1 := by
  induction pre generalizing st with
  | nil =>
    rw [List.nil_append, List.nil_append,
        go_cons_ok env pm n post st st [skipLine n] (processName_skip env pm n st h)]
    exact ⟨rfl, rfl⟩
  | cons p pre' ih =>
    rcases hpn : processName env pm p st with ⟨r, st', ls⟩
    cases r with
    | error e =>
      rw [List.cons_append, List.cons_append,
          go_cons_error env pm p (pre' ++ n :: post) st st' e ls hpn,
          go_cons_error env pm p (pre' ++ post) st st' e ls hpn]
      exact ⟨rfl, rfl⟩
    | ok u =>
      cases u
      have hcfg : st'.config = st.config := by
        have hc := processName_state_config env pm p st
        rw [hpn] at hc
        exact hc
      rw [List.cons_append, List.cons_append,
          go_cons_ok env pm p (pre' ++ n :: post) st st' ls hpn,
          go_cons_ok env pm p (pre' ++ post) st st' ls hpn]
      have ih' := ih st' (by rw [hcfg]; exact h)
      exact ⟨ih'.1, ih'.2⟩

/-- Sum of the per-module tool counts of the `loadedModules` map. -/
def sumToolCounts (m : List (String × LoadedModule)) : Nat :=
  (m.map (fun p => p.2.tools.length)).sum

theorem go_count_inv (env : Env) (pm : Bool) (names : List String)
    (st : LoaderState) (hnd : names.Nodup)
    (hdisj : ∀ m ∈ names, m ∉ keysOf st.loadedModules)
    (hinv : st.allTools.length = sumToolCounts st.loadedModules)
    (hok : (go env pm names st).1 = .ok ()) :
    (go env pm names st).2.1.allTools.length =
      sumToolCounts (go env pm names st).2.1.loadedModules := by
  induction names generalizing st with
  | nil => exact hinv
  | cons n rest ih =>
    rcases List.nodup_cons.mp hnd with ⟨hn_rest, hnd'⟩
    cases he : enabledIn st.config n with
    | false =>
      rw [go_cons_ok env pm n rest st st [skipLine n]
            (processName_skip env pm n st he)] at hok ⊢
      exact ih st hnd' (fun m hm => hdisj m (List.mem_cons_of_mem n hm)) hinv hok
    | true =>
      cases hlok : loadOk (env n) with
      | false =>
        cases pm
        · rw [go_cons_error env false n rest st st _ _
                (processName_load_fail_nonprod env n st he hlok)] at hok
          cases hok
        · rw [go_cons_ok env true n rest st st _
                (processName_load_fail_prod env n st he hlok)] at hok ⊢
          exact ih st hnd' (fun m hm => hdisj m (List.mem_cons_of_mem n hm))
            hinv hok
      | true =>
        rw [go_cons_ok env pm n rest st (applyLoad env n st) _
              (processName_load_ok env pm n st he hlok)] at hok ⊢
        refine ih (applyLoad env n st) hnd' ?_ ?_ hok
        · intro m hm
          have hmn : m ≠ n := fun hc => hn_rest (hc ▸ hm)
          have hmold : m ∉ keysOf st.loadedModules :=
            hdisj m (List.mem_cons_of_mem n hm)
          have hkeys : keysOf (applyLoad env n st).loadedModules =
              keysOf st.loadedModules ++ [n] := by
            show keysOf (mapSet st.loadedModules n _) = _
            rw [mapSet_of_not_mem st.loadedModules n _
                  (hdisj n (List.mem_cons_self n rest))]
            simp [keysOf]
          rw [hkeys]
          intro hc
          rcases List.mem_append.mp hc with h1 | h2
          · exact hmold h1
          · exact hmn (by simpa using h2)
        · show (st.allTools ++ providerDefs env n).length =
            sumToolCounts (mapSet st.loadedModules n
              { tools := providerDefs env n, handlers := providerHandlers env n })
          rw [mapSet_of_not_mem st.loadedModules n _
                (hdisj n (List.mem_cons_self n rest))]
          unfold sumToolCounts
          rw [List.length_append, List.map_append, List.sum_append]
          unfold sumToolCounts at hinv
          rw [hinv]
          simp

/-! ### Characterization of `loadAllModules` -/

theorem loadAllModules_of_go_ok (env : Env) (pm : Bool) (st : LoaderState)
    (h : (go env pm (moduleOrder st.config) st).1 = .ok ()) :
    loadAllModules env pm st =
      (.ok (), (go env pm (moduleOrder st.config) st).2.1,
        startLine :: (go env pm (moduleOrder st.config) st).2.2 ++
          [summaryLine (go env pm (moduleOrder st.config) st).2.1]) := by
  unfold loadAllModules
  rw [h]

theorem loadAllModules_of_go_error (env : Env) (pm : Bool) (st : LoaderState)
    (e : String) (h : (go env pm (moduleOrder st.config) st).1 = .error e) :
    loadAllModules env pm st =
      (.error e, (go env pm (moduleOrder st.config) st).2.1,
        startLine :: (go env pm (moduleOrder st.config) st).2.2) := by
  unfold loadAllModules
  rw [h]

theorem go_ok_of_loadAllModules_ok (env : Env) (pm : Bool) (st : LoaderState)
    (h : (loadAllModules env pm st).1 = .ok ()) :
    (go env pm (moduleOrder st.config) st).1 = .ok () := by
  cases hg : (go env pm (moduleOrder st.config) st).1 with
  | ok u => cases u; rfl
  | error e =>
    rw [loadAllModules_of_go_error env pm st e hg] at h
    cases h

theorem loadAllModules_state (env : Env) (pm : Bool) (st : LoaderState) :
    (loadAllModules env pm st).2.1 =
      (go env pm (moduleOrder st.config) st).2.1 := by
  cases hg : (go env pm (moduleOrder st.config) st).1 with
  | ok u => cases u; rw [loadAllModules_of_go_ok env pm st hg]
  | error e => rw [loadAllModules_of_go_error env pm st e hg]

/-! ### Validation lemmas -/

theorem fieldMissing_name (t : ToolDefinition) :
    fieldMissing t "name" = (t.name == "") := rfl

theorem fieldMissing_desc (t : ToolDefinition) :
    fieldMissing t "description" = (t.description == "") := rfl

theorem fieldMissing_schema (t : ToolDefinition) :
    fieldMissing t "inputSchema" = t.inputSchema.isNone := rfl

theorem validateToolDefinition_error_iff (t : ToolDefinition) :
    (∃ m, validateToolDefinition t = .error m) ↔
      (t.name = "" ∨ t.description = "" ∨ t.inputSchema = none ∨
        ∃ s, t.inputSchema = some s ∧ (s.type = "" ∨ s.properties = none)) := by
  unfold validateToolDefinition
  simp only [requiredFields, List.filter, fieldMissing_name, fieldMissing_desc,
    fieldMissing_schema]
  cases hn : t.name == "" with
  | true =>
    have hn' : t.name = "" := by simpa using hn
    simp [hn']
  | false =>
    have hn' : ¬ t.name = "" := by simpa using hn
    cases hd : t.description == "" with
    | true =>
      have hd' : t.description = "" := by simpa using hd
      simp [hn', hd']
    | false =>
      have hd' : ¬ t.description = "" := by simpa using hd
      cases hsch : t.inputSchema with
      | none => simp [hn', hd', hsch]
      | some s =>
        cases hty : s.type == "" with
        | true =>
          have hty' : s.type = "" := by simpa using hty
          simp [hn', hd', hsch, hty, hty']
        | false =>
          have hty' : ¬ s.type = "" := by simpa using hty
          cases hpr : s.properties with
          | none => simp [hn', hd', hsch, hty, hty', hpr]
          | some pr => simp [hn', hd', hsch, hty, hty', hpr]

theorem validateToolDefinition_entry_none_iff (t : ToolDefinition) :
    ((match validateToolDefinition t with
      | .ok _ => (none : Option String)
      | .error m => some (t.name ++ ": " ++ m)) = none) ↔
      validateToolDefinition t = .ok () := by
  cases hv : validateToolDefinition t with
  | ok u => cases u; simp
  | error m => simp

theorem validateAllTools_error_case (st : LoaderState) (msg : String)
    (h : validateAllTools st = .error msg) :
    msg = "Tool validation errors:\n" ++
      joinWith "\n" (st.allTools.filterMap (fun t =>
        match validateToolDefinition t with
        | .ok _ => none
        | .error m => some (t.name ++ ": " ++ m))) := by
  simp only [validateAllTools] at h
  by_cases hE : (st.allTools.filterMap (fun t =>
      match validateToolDefinition t with
      | .ok _ => none
      | .error m => some (t.name ++ ": " ++ m))).isEmpty = true
  · rw [if_pos hE] at h; cases h
  · rw [if_neg hE] at h
    injection h with h
    exact h.symm

theorem validateAllTools_error_iff_exists (st : LoaderState) :
    (∃ msg, validateAllTools st = .error msg) ↔
      ∃ t ∈ st.allTools, ∃ m, validateToolDefinition t = .error m := by
  simp only [validateAllTools]
  by_cases hE : (st.allTools.filterMap (fun t =>
      match validateToolDefinition t with
      | .ok _ => none
      | .error m => some (t.name ++ ": " ++ m))).isEmpty = true
  · rw [if_pos hE]
    constructor
    · rintro ⟨msg, hmsg⟩
      cases hmsg
    · rintro ⟨t, ht, m, hm⟩
      have hnil := List.isEmpty_iff.mp hE
      have hnone := List.filterMap_eq_nil_iff.mp hnil t ht
      rw [hm] at hnone
      cases hnone
  · rw [if_neg hE]
    constructor
    · intro _
      have hnil : st.allTools.filterMap (fun t =>
          match validateToolDefinition t with
          | .ok _ => none
          | .error m => some (t.name ++ ": " ++ m)) ≠ [] := by
        intro hc
        exact hE (List.isEmpty_iff.mpr hc)
      rcases List.exists_mem_of_ne_nil _ hnil with ⟨e, he⟩
      rcases List.mem_filterMap.mp he with ⟨t, ht, hft⟩
      cases hv : validateToolDefinition t with
      | ok u => rw [hv] at hft; cases hft
      | error m => exact ⟨t, ht, m, hv⟩
    · intro _
      exact ⟨_, rfl⟩

/-- Claim C2: `validateAllTools` raises an error if and only if some tool
definition in the global catalog lacks one of the fields `name`,
`description`, `inputSchema`, or its `inputSchema` lacks a `type` or a
`properties` mapping (absent or falsy field values count as lacking); and
when it raises, the message contains the name of every offending tool, not
only the first one — in particular a tool missing `inputSchema.properties`
causes the raise and its name appears in the message. -/
theorem claim_C2_validateAllTools (st : LoaderState) :
    ((∃ msg, validateAllTools st = .error msg) ↔
      ∃ t ∈ st.allTools,
        (t.name = "" ∨ t.description = "" ∨ t.inputSchema = none ∨
          ∃ s, t.inputSchema = some s ∧ (s.type = "" ∨ s.properties = none))) ∧
    (∀ msg, validateAllTools st = .error msg →
      ∀ t ∈ st.allTools,
        (t.name = "" ∨ t.description = "" ∨ t.inputSchema = none ∨
          ∃ s, t.inputSchema = some s ∧ (s.type = "" ∨ s.properties = none)) →
        ∃ p q, msg = p ++ t.name ++ q) := by
  constructor
  · rw [validateAllTools_error_iff_exists st]
    constructor
    · rintro ⟨t, ht, hm⟩
      exact ⟨t, ht, (validateToolDefinition_error_iff t).mp hm⟩
    · rintro ⟨t, ht, hbad⟩
      exact ⟨t, ht, (validateToolDefinition_error_iff t).mpr hbad⟩
  · intro msg hmsg t ht hbad
    rcases (validateToolDefinition_error_iff t).mpr hbad with ⟨m, hv⟩
    have hentry : (t.name ++ ": " ++ m) ∈ st.allTools.filterMap (fun t =>
        match validateToolDefinition t with
        | .ok _ => none
        | .error m => some (t.name ++ ": " ++ m)) := by
      apply List.mem_filterMap.mpr
      exact ⟨t, ht, by rw [hv]⟩
    rcases joinWith_mem_split "\n" _ _ hentry with ⟨p, q, hj⟩
    refine ⟨"Tool validation errors:\n" ++ p, ": " ++ m ++ q, ?_⟩
    rw [validateAllTools_error_case st msg hmsg, hj]
    simp [String.append_assoc]

/-! ### Concrete example inputs shared by the claim witnesses -/

/-- A concrete well-formed tool definition. -/
def sampleTool (nm : String) : ToolDefinition :=
  { name := nm, description := "d"
  , inputSchema := some { type := "object", properties := some [] } }

/-- A tool definition whose `inputSchema` lacks `properties`. -/
def badPropsTool : ToolDefinition :=
  { name := "bad1", description := "d"
  , inputSchema := some { type := "object", properties := none } }

/-- Example environment: provider `alpha` offers two tools, `beta` one,
`gamma` one tool but an empty handler mapping; every other name fails to
resolve. -/
def sampleEnv : Env := fun n =>
  if n == "alpha" then
    { pathExists := true, hasDefault := true
    , defs := .ok [sampleTool "a1", sampleTool "a2"]
    , handlers := .ok [("a1", 1), ("a2", 2)] }
  else if n == "beta" then
    { pathExists := true, hasDefault := true
    , defs := .ok [sampleTool "b1"], handlers := .ok [("b1", 3)] }
  else if n == "gamma" then
    { pathExists := true, hasDefault := true
    , defs := .ok [sampleTool "g1"], handlers := .ok [] }
  else
    { pathExists := false, hasDefault := false
    , defs := .error "boom", handlers := .error "boom" }

/-- Configuration enabling `alpha`, `bad`, `beta` in that order (`bad`
fails to resolve under `sampleEnv`). -/
def sampleCfg : Config :=
  { enabledModules :=
      [ ("alpha", { enabled := true, description := none })
      , ("bad", { enabled := true, description := none })
      , ("beta", { enabled := true, description := none }) ]
  , moduleLoadOrder := some ["alpha", "bad", "beta"] }

/-- Configuration enabling `alpha` and `beta` in that order. -/
def sampleCfgOk : Config :=
  { enabledModules :=
      [ ("alpha", { enabled := true, description := none })
      , ("beta", { enabled := true, description := none }) ]
  , moduleLoadOrder := some ["alpha", "beta"] }

/-- Configuration whose load order repeats `alpha`. -/
def dupCfg : Config :=
  { enabledModules := [("alpha", { enabled := true, description := none })]
  , moduleLoadOrder := some ["alpha", "alpha"] }

/-- A loader state with the `alpha` provider already loaded. -/
def sampleLoadedState : LoaderState :=
  { config := sampleCfgOk
  , loadedModules :=
      [("alpha", { tools := [sampleTool "a1", sampleTool "a2"]
                 , handlers := [("a1", 1), ("a2", 2)] })]
  , allTools := [sampleTool "a1", sampleTool "a2"]
  , allHandlers := [("a1", 1), ("a2", 2)] }

/-- A loader state whose catalog holds one valid tool and one tool whose
`inputSchema` lacks `properties`. -/
def sampleValState : LoaderState :=
  { config := sampleCfgOk, loadedModules := []
  , allTools := [sampleTool "a1", badPropsTool], allHandlers := [] }

/-- Claim C2 exercised concretely: the catalog of `sampleValState` contains
`badPropsTool` (missing `inputSchema.properties`), so validation raises and
the raised message contains that tool's name `bad1`. -/
theorem claim_C2_witness :
    ∃ p q, "Tool validation errors:\n" ++
      ("bad1" ++ ": " ++ "Tool bad1 has invalid inputSchema") =
        p ++ "bad1" ++ q := by
  have h := (claim_C2_validateAllTools sampleValState).2
    ("Tool validation errors:\n" ++
      ("bad1" ++ ": " ++ "Tool bad1 has invalid inputSchema"))
    (by rfl) badPropsTool (by decide)
    (Or.inr (Or.inr (Or.inr ⟨_, rfl, Or.inr rfl⟩)))
  exact h

/-- Claim C8: on an unreadable or unparsable configuration source,
`loadConfig` warns and returns the hard-coded default configuration that
enables exactly `search, papers, agents, reviews, citations, marketplace,
users` in that order; it never throws (it is total); on success it returns
the parsed structure verbatim. -/
theorem claim_C8_loadConfig :
    ((loadConfig none).1 = defaultConfig ∧
      keysOf (loadConfig none).1.enabledModules =
        ["search", "papers", "agents", "reviews", "citations",
          "marketplace", "users"] ∧
      ((loadConfig none).1.enabledModules.all (fun p => p.2.enabled)) = true ∧
      (loadConfig none).1.moduleLoadOrder =
        some ["search", "papers", "agents", "reviews", "citations",
          "marketplace", "users"] ∧
      configWarnLine ∈ (loadConfig none).2) ∧
    ∀ c : Config, loadConfig (some c) = (c, []) :=
  ⟨⟨rfl, rfl, rfl, rfl, List.mem_singleton.mpr rfl⟩, fun _ => rfl⟩

/-- Claim C1 counterexample: at a concrete input where the in-memory update
succeeds (the `search` entry exists) and the configuration write fails,
`updateModuleConfig` returns `true` — not `false` as the claim states —
while `saveConfig` itself returns `false`. -/
theorem claim_C1_counterexample :
    alookup sampleLoadedState.config.enabledModules "alpha" =
      some { enabled := true, description := none } ∧
    (saveConfig (some "EACCES: permission denied")).1 = false ∧
    (updateModuleConfig (some "EACCES: permission denied") sampleLoadedState
      "alpha" false).1 = true ∧
    ¬ (updateModuleConfig (some "EACCES: permission denied") sampleLoadedState
      "alpha" false).1 = false := by
  refine ⟨rfl, rfl, rfl, ?_⟩
  decide

theorem alookup_setEnabled_self (m : List (String × ModuleConfig)) (n : String)
    (b : Bool) (mc : ModuleConfig) (h : alookup m n = some mc) :
    alookup (setEnabled m n b) n = some { mc with enabled := b } := by
  induction m with
  | nil => cases h
  | cons p rest ih =>
    unfold alookup at h
    unfold setEnabled
    rw [List.map_cons]
    by_cases hp : (p.1 == n) = true
    · rw [if_pos hp] at h
      injection h with h
      rw [if_pos hp]
      simp [alookup, hp, h]
    · have hp' : (p.1 == n) = false := Bool.eq_false_iff.mpr hp
      rw [if_neg hp] at h
      rw [if_neg hp]
      simp only [alookup, hp', Bool.false_eq_true, if_false]
      exact ih h

/-- Claim C1 (amended): if the in-memory update succeeds (the provider has
a configuration entry) and persisting fails, `updateModuleConfig` logs the
failure, does not throw, applies the in-memory toggle — but returns `true`,
not `false`: its boolean reports only whether the provider had an entry,
while `saveConfig`'s `false` result is discarded. -/
theorem claim_C1_amended (st : LoaderState) (n : String) (mc : ModuleConfig)
    (e : String) (b : Bool)
    (hmc : alookup st.config.enabledModules n = some mc) :
    (updateModuleConfig (some e) st n b).1 = true ∧
    saveFailLine e ∈ (updateModuleConfig (some e) st n b).2.2 ∧
    (saveConfig (some e)).1 = false ∧
    alookup (updateModuleConfig (some e) st n b).2.1.config.enabledModules n =
      some { mc with enabled := b } := by
  unfold updateModuleConfig
  rw [hmc]
  refine ⟨rfl, ?_, rfl, ?_⟩
  · exact List.mem_singleton.mpr rfl
  · exact alookup_setEnabled_self st.config.enabledModules n b mc hmc

/-- Claim C1 (amended) at a concrete input. -/
theorem claim_C1_amended_witness :
    alookup sampleLoadedState.config.enabledModules "alpha" =
      some { enabled := true, description := none } ∧
    ((updateModuleConfig (some "disk full") sampleLoadedState
        "alpha" false).1 = true ∧
      saveFailLine "disk full" ∈ (updateModuleConfig (some "disk full")
        sampleLoadedState "alpha" false).2.2 ∧
      (saveConfig (some "disk full")).1 = false ∧
      alookup (updateModuleConfig (some "disk full") sampleLoadedState
        "alpha" false).2.1.config.enabledModules "alpha" =
          some { enabled := false, description := none }) :=
  ⟨rfl, claim_C1_amended sampleLoadedState "alpha"
    { enabled := true, description := none } "disk full" false rfl⟩

/-- Claim C4: a provider whose load fails — module file not found, no
default export, or a throwing definition- or handler-producing operation —
leaves the global catalog, the handler mapping and the `loadedModules` map
exactly as they were before the attempt: zero tools, zero handlers, no
partial population. -/
theorem claim_C4_failed_load (env : Env) (n : String) (st : LoaderState)
    (e : String) (h : (loadModuleSt env n st).1 = .error e) :
    (loadModuleSt env n st).2.1.allTools = st.allTools ∧
    (loadModuleSt env n st).2.1.allHandlers = st.allHandlers ∧
    (loadModuleSt env n st).2.1.loadedModules = st.loadedModules := by
  rw [loadModuleSt_fail_state env n st e h]
  exact ⟨rfl, rfl, rfl⟩

/-- Claim C4 at a concrete input: loading the unresolvable `bad` module
fails and leaves the state untouched. -/
theorem claim_C4_witness :
    (loadModuleSt sampleEnv "bad" sampleLoadedState).1 =
      .error ("Module file not found: " ++ modulePath "bad") ∧
    (loadModuleSt sampleEnv "bad" sampleLoadedState).2.1.allTools =
      sampleLoadedState.allTools :=
  ⟨rfl, (claim_C4_failed_load sampleEnv "bad" sampleLoadedState
    ("Module file not found: " ++ modulePath "bad") rfl).1⟩

/-- Claim C5: with every provider in the configured load order enabled and
loading successfully, the tool sequence after loading lists each provider's
tools contiguously, block by block in the same relative order as the
configured sequence, and within each block in the order the provider
returned its definitions. -/
theorem claim_C5_order (env : Env) (c : Config) (pm : Bool)
    (hok : ∀ m ∈ moduleOrder c, enabledIn c m = true ∧ loadOk (env m) = true) :
    (loadAllModules env pm (initialState c)).1 = .ok () ∧
    listTools (loadAllModules env pm (initialState c)).2.1 =
      concatMap (providerDefs env) (moduleOrder c) := by
  have hgo := go_allOk env pm (moduleOrder c) (initialState c) hok
  have hlm := loadAllModules_of_go_ok env pm (initialState c) hgo.1
  constructor
  · rw [hlm]
  · rw [hlm]
    show (go env pm (moduleOrder c) (initialState c)).2.1.allTools = _
    rw [hgo.2, loadFold_allTools]
    show [] ++ _ = _
    rw [List.nil_append]

/-- Claim C5 at a concrete input: `alpha` then `beta`, all enabled, all
loading; the catalog is `alpha`'s block followed by `beta`'s block. -/
theorem claim_C5_witness :
    (∀ m ∈ moduleOrder sampleCfgOk,
      enabledIn sampleCfgOk m = true ∧ loadOk (sampleEnv m) = true) ∧
    ((loadAllModules sampleEnv false (initialState sampleCfgOk)).1 = .ok () ∧
      listTools (loadAllModules sampleEnv false (initialState sampleCfgOk)).2.1 =
        concatMap (providerDefs sampleEnv) (moduleOrder sampleCfgOk)) :=
  ⟨by decide, claim_C5_order sampleEnv sampleCfgOk false (by decide)⟩

/-- Claim C3: if exactly one provider `f` in the configured order fails to
load while every other provider is enabled and loads, then in production
mode `loadAllModules` completes, logs the failure naming `f`, and the
catalog holds the union of every other provider's tools and handlers;
in non-production mode the error propagates and the loader never reaches
the loaded state. -/
theorem claim_C3_failure_isolation (env : Env) (c : Config)
    (pre post : List String) (f : String)
    (hok : ∀ m ∈ pre ++ post, enabledIn c m = true ∧ loadOk (env m) = true)
    (hfe : enabledIn c f = true) (hff : loadOk (env f) = false)
    (horder : moduleOrder c = pre ++ f :: post) :
    ((loadAllModules env true (initialState c)).1 = .ok () ∧
      (loadAllModules env true (initialState c)).2.1.allTools =
        concatMap (providerDefs env) (pre ++ post) ∧
      (loadAllModules env true (initialState c)).2.1.allHandlers =
        handlersUnion env (pre ++ post) [] ∧
      ∃ p q, failLogLine f (loadErrMsg (env f) f) ∈
          (loadAllModules env true (initialState c)).2.2 ∧
        failLogLine f (loadErrMsg (env f) f) = p ++ f ++ q) ∧
    ∃ e, (loadAllModules env false (initialState c)).1 = .error e := by
  have hpre : ∀ m ∈ pre, enabledIn c m = true ∧ loadOk (env m) = true :=
    fun m hm => hok m (List.mem_append.mpr (Or.inl hm))
  have hpost : ∀ m ∈ post, enabledIn c m = true ∧ loadOk (env m) = true :=
    fun m hm => hok m (List.mem_append.mpr (Or.inr hm))
  constructor
  · -- production mode
    have hgopre := go_allOk env true pre (initialState c) hpre
    have hga := go_append env true pre (f :: post) (initialState c) hgopre.1
    have hst1cfg : (go env true pre (initialState c)).2.1.config = c :=
      go_state_config env true pre (initialState c)
    have hpn : processName env true f (go env true pre (initialState c)).2.1 =
        (.ok (), (go env true pre (initialState c)).2.1,
          [failLogLine f (loadErrMsg (env f) f), continuingLine f]) :=
      processName_load_fail_prod env f _ (by rw [hst1cfg]; exact hfe) hff
    have hgc := go_cons_ok env true f post _ _ _ hpn
    have hgopost := go_allOk env true post (go env true pre (initialState c)).2.1
      (by intro m hm; rw [hst1cfg]; exact hpost m hm)
    have hgo_ok : (go env true (pre ++ f :: post) (initialState c)).1 = .ok () := by
      rw [hga, hgc]
      exact hgopost.1
    have hstate : (go env true (pre ++ f :: post) (initialState c)).2.1 =
        loadFold env (pre ++ post) (initialState c) := by
      rw [hga, hgc]
      show (go env true post (go env true pre (initialState c)).2.1).2.1 = _
      rw [hgopost.2, hgopre.2, ← loadFold_append_names env pre post (initialState c)]
    have horder' : moduleOrder (initialState c).config = pre ++ f :: post := horder
    have hgo_ok' : (go env true (moduleOrder (initialState c).config)
        (initialState c)).1 = .ok () := by
      rw [horder']
      exact hgo_ok
    have hlm := loadAllModules_of_go_ok env true (initialState c) hgo_ok'
    rw [horder'] at hlm
    refine ⟨?_, ?_, ?_, ?_⟩
    · rw [hlm]
    · rw [hlm]
      show (go env true (pre ++ f :: post) (initialState c)).2.1.allTools = _
      rw [hstate, loadFold_allTools]
      show [] ++ _ = _
      rw [List.nil_append]
    · rw [hlm]
      show (go env true (pre ++ f :: post) (initialState c)).2.1.allHandlers = _
      rw [hstate, loadFold_allHandlers]
      rfl
    · refine ⟨"❌ Failed to load module ", ": " ++ loadErrMsg (env f) f, ?_, ?_⟩
      · rw [hlm]
        show failLogLine f (loadErrMsg (env f) f) ∈
          startLine :: (go env true (pre ++ f :: post) (initialState c)).2.2 ++ _
        rw [hga, hgc]
        simp
      · simp [failLogLine, String.append_assoc]
  · -- non-production mode
    have hgopre := go_allOk env false pre (initialState c) hpre
    have hga := go_append env false pre (f :: post) (initialState c) hgopre.1
    have hst1cfg : (go env false pre (initialState c)).2.1.config = c :=
      go_state_config env false pre (initialState c)
    have hpn : processName env false f (go env false pre (initialState c)).2.1 =
        (.error (loadErrMsg (env f) f), (go env false pre (initialState c)).2.1,
          [failLogLine f (loadErrMsg (env f) f)]) :=
      processName_load_fail_nonprod env f _ (by rw [hst1cfg]; exact hfe) hff
    have hgc := go_cons_error env false f post _ _ _ _ hpn
    have hgoerr : (go env false (pre ++ f :: post) (initialState c)).1 =
        .error (loadErrMsg (env f) f) := by
      rw [hga, hgc]
    have horder' : moduleOrder (initialState c).config = pre ++ f :: post := horder
    have hgoerr' : (go env false (moduleOrder (initialState c).config)
        (initialState c)).1 = .error (loadErrMsg (env f) f) := by
      rw [horder']
      exact hgoerr
    exact ⟨loadErrMsg (env f) f,
      by rw [loadAllModules_of_go_error env false (initialState c) _ hgoerr']⟩

/-- Claim C3 at a concrete input: `alpha`, `bad`, `beta` with `bad` failing
to resolve; production mode completes with the union `alpha` + `beta`,
non-production mode propagates the error. -/
theorem claim_C3_witness :
    (enabledIn sampleCfg "bad" = true ∧ loadOk (sampleEnv "bad") = false) ∧
    ((loadAllModules sampleEnv true (initialState sampleCfg)).1 = .ok () ∧
      (loadAllModules sampleEnv true (initialState sampleCfg)).2.1.allTools =
        concatMap (providerDefs sampleEnv) (["alpha"] ++ ["beta"])) ∧
    ∃ e, (loadAllModules sampleEnv false (initialState sampleCfg)).1 =
      .error e := by
  have h := claim_C3_failure_isolation sampleEnv sampleCfg ["alpha"] ["beta"]
    "bad" (by decide) (by decide) (by decide) rfl
  exact ⟨⟨by decide, by decide⟩, ⟨h.1.1, h.1.2.1⟩, h.2⟩

/-- Claim C7: a name in the load order whose `ProviderConfig` entry is
absent or whose enabled flag is falsy is skipped with a skip log line and
is not an error: it contributes nothing to the catalog, handler mapping or
`loadedModules` map, and the loading of the other providers is
unaffected. -/
theorem claim_C7_skip (env : Env) (pm : Bool) (st : LoaderState) (n : String)
    (pre post : List String)
    (h : alookup st.config.enabledModules n = none ∨
      ∃ mc, alookup st.config.enabledModules n = some mc ∧ mc.enabled = false) :
    processName env pm n st = (.ok (), st, [skipLine n]) ∧
    (go env pm (pre ++ n :: post) st).1 = (go env pm (pre ++ post) st).1 ∧
    (go env pm (pre ++ n :: post) st).2.1 = (go env pm (pre ++ post) st).2.1 := by
  have he : enabledIn st.config n = false := by
    unfold enabledIn
    rcases h with h | ⟨mc, hmc, hen⟩
    · rw [h]
    · rw [hmc]
      exact hen
  exact ⟨processName_skip env pm n st he,
    (go_skip_middle env pm n pre post st he).1,
    (go_skip_middle env pm n pre post st he).2⟩

/-- Claim C7 at a concrete input: the unknown name `ghost` in the middle of
the order is skipped and the rest of the load is unaffected. -/
theorem claim_C7_witness :
    alookup (initialState sampleCfgOk).config.enabledModules "ghost" = none ∧
    processName sampleEnv false "ghost" (initialState sampleCfgOk) =
      (.ok (), initialState sampleCfgOk, [skipLine "ghost"]) ∧
    (go sampleEnv false (["alpha"] ++ "ghost" :: ["beta"])
        (initialState sampleCfgOk)).2.1 =
      (go sampleEnv false (["alpha"] ++ ["beta"])
        (initialState sampleCfgOk)).2.1 := by
  have h := claim_C7_skip sampleEnv false (initialState sampleCfgOk) "ghost"
    ["alpha"] ["beta"] (Or.inl rfl)
  exact ⟨rfl, h.1, h.2.2⟩

/-- Claim C6: a provider whose handler mapping omits a name present in its
tool definitions still loads successfully, with a logged warning naming
that tool; afterwards the tool appears in the global tool sequence while
`getHandlerByName` for that name (registered by no other provider) returns
`undefined`. -/
theorem claim_C6_missing_handler (env : Env) (n : String) (st : LoaderState)
    (t : ToolDefinition) (ds : List ToolDefinition)
    (hs : List (String × Handler))
    (hex : (env n).pathExists = true) (hdef : (env n).hasDefault = true)
    (hds : (env n).defs = .ok ds) (hhs : (env n).handlers = .ok hs)
    (hmem : t ∈ ds) (homit : t.name ∉ keysOf hs)
    (hfresh : getHandlerByName st t.name = none) :
    (loadModuleSt env n st).1 = .ok () ∧
    t ∈ (loadModuleSt env n st).2.1.allTools ∧
    getHandlerByName (loadModuleSt env n st).2.1 t.name = none ∧
    ∃ ms p q, missingHandlersLine n ms ∈ (loadModuleSt env n st).2.2 ∧
      missingHandlersLine n ms = p ++ t.name ++ q := by
  have hok : loadOk (env n) = true := by
    unfold loadOk
    rw [hex, hdef, hds, hhs]
    rfl
  have hpd : providerDefs env n = ds := by unfold providerDefs; rw [hds]
  have hph : providerHandlers env n = hs := by unfold providerHandlers; rw [hhs]
  have hmem_filter : t.name ∈ (ds.map (fun t => t.name)).filter
      (fun nm => !((keysOf hs).contains nm)) := by
    apply List.mem_filter.mpr
    refine ⟨List.mem_map_of_mem _ hmem, ?_⟩
    cases hcon : (keysOf hs).contains t.name with
    | true => exact absurd (List.elem_iff.mp hcon) homit
    | false => rfl
  rw [loadModuleSt_ok env n st hok]
  refine ⟨rfl, ?_, ?_, ?_⟩
  · show t ∈ st.allTools ++ providerDefs env n
    rw [hpd]
    exact List.mem_append.mpr (Or.inr hmem)
  · show alookup (assignAll (providerHandlers env n) st.allHandlers) t.name = none
    rw [hph, alookup_assignAll_not_mem hs st.allHandlers t.name homit]
    exact hfresh
  · refine ⟨(ds.map (fun t => t.name)).filter (fun nm => !((keysOf hs).contains nm)),
      ?_⟩
    rcases joinWith_mem_split ", " _ t.name hmem_filter with ⟨p, q, hj⟩
    refine ⟨"⚠️ Warning: " ++ n ++ " module missing handlers for tools: " ++ p,
      q ++ "", ?_, ?_⟩
    · show missingHandlersLine n _ ∈ contractWarnings n
        ((providerDefs env n).map (fun t => t.name))
        (keysOf (providerHandlers env n))
      rw [hpd, hph]
      simp only [contractWarnings]
      have hne : ((ds.map (fun t => t.name)).filter
          (fun nm => !((keysOf hs).contains nm))).isEmpty = false := by
        rw [Bool.eq_false_iff]
        intro hc
        exact List.ne_nil_of_mem hmem_filter (List.isEmpty_iff.mp hc)
      rw [if_neg (by rw [hne]; exact Bool.false_ne_true)]
      exact List.mem_append.mpr (Or.inl (List.mem_singleton.mpr rfl))
    · unfold missingHandlersLine
      rw [hj]
      simp [String.append_assoc, String.append_empty]

/-- Claim C6 at a concrete input: provider `gamma` lists tool `g1` but has
no handler for it; the load succeeds with the warning, `g1` is listed, and
its handler lookup is undefined. -/
theorem claim_C6_witness :
    (loadModuleSt sampleEnv "gamma" (initialState sampleCfgOk)).1 = .ok () ∧
    sampleTool "g1" ∈
      (loadModuleSt sampleEnv "gamma" (initialState sampleCfgOk)).2.1.allTools ∧
    getHandlerByName
      (loadModuleSt sampleEnv "gamma" (initialState sampleCfgOk)).2.1 "g1" =
        none ∧
    ∃ ms p q, missingHandlersLine "gamma" ms ∈
        (loadModuleSt sampleEnv "gamma" (initialState sampleCfgOk)).2.2 ∧
      missingHandlersLine "gamma" ms = p ++ "g1" ++ q :=
  claim_C6_missing_handler sampleEnv "gamma" (initialState sampleCfgOk)
    (sampleTool "g1") [sampleTool "g1"] [] rfl rfl rfl rfl
    (List.mem_singleton.mpr rfl) (by decide) rfl

/-! ### Introspection lemmas for C9 and C10 -/

theorem alookup_map_pair {α β : Type} (g : String → α → β)
    (m : List (String × α)) (k : String) :
    alookup (m.map (fun p => (p.1, g p.1 p.2))) k =
      (alookup m k).map (g k) := by
  induction m with
  | nil => rfl
  | cons p rest ih =>
    rw [List.map_cons]
    by_cases hp : (p.1 == k) = true
    · have hk : p.1 = k := by simpa using hp
      subst hk
      simp [alookup]
    · have hp' : (p.1 == k) = false := Bool.eq_false_iff.mpr hp
      simp only [alookup, hp', Bool.false_eq_true, if_false]
      simpa using ih

theorem getModuleInfo_enabled (st : LoaderState) (p : String)
    (md : LoadedModule) (hlm : alookup st.loadedModules p = some md) :
    (getModuleInfo st p).map (fun i => i.enabled) = some true := by
  unfold getModuleInfo
  rw [hlm]
  rfl

theorem getStats_modules_lookup (st : LoaderState) (p : String) :
    alookup (getStats st).modules p =
      (alookup st.loadedModules p).map (fun md =>
        ({ toolCount := md.tools.length
         , enabled := enabledIn st.config p } : ModuleStats)) := by
  show alookup (st.loadedModules.map (fun q =>
    (q.1, ({ toolCount := q.2.tools.length
           , enabled := enabledIn st.config q.1 } : ModuleStats)))) p = _
  exact alookup_map_pair (fun k md =>
    ({ toolCount := md.tools.length
     , enabled := enabledIn st.config k } : ModuleStats)) st.loadedModules p

/-- Claim C9: `getModuleInfo` reports `enabled: true` unconditionally for
every loaded provider, regardless of the current configuration; in
particular after `updateModuleConfig p false` succeeds, `getModuleInfo p`
still reports `enabled: true` while `getStats().modules[p]` reports
`enabled: false`, so the two introspection operations disagree. -/
theorem claim_C9_enabled_disagreement (st : LoaderState) (p : String)
    (md : LoadedModule) (mc : ModuleConfig) (writeErr : Option String)
    (hlm : alookup st.loadedModules p = some md)
    (hmc : alookup st.config.enabledModules p = some mc) :
    ((getModuleInfo st p).map (fun i => i.enabled) = some true) ∧
    (updateModuleConfig writeErr st p false).1 = true ∧
    ((getModuleInfo (updateModuleConfig writeErr st p false).2.1 p).map
      (fun i => i.enabled) = some true) ∧
    ((alookup (getStats (updateModuleConfig writeErr st p false).2.1).modules
      p).map (fun s => s.enabled) = some false) := by
  have hupd : (updateModuleConfig writeErr st p false).2.1 =
      { st with config := { st.config with
        enabledModules := setEnabled st.config.enabledModules p false } } := by
    unfold updateModuleConfig
    rw [hmc]
  have hfst : (updateModuleConfig writeErr st p false).1 = true := by
    unfold updateModuleConfig
    rw [hmc]
  refine ⟨getModuleInfo_enabled st p md hlm, hfst, ?_, ?_⟩
  · rw [hupd]
    exact getModuleInfo_enabled _ p md hlm
  · rw [hupd]
    rw [getStats_modules_lookup]
    have hlm' : alookup ({ st with config := { st.config with
        enabledModules := setEnabled st.config.enabledModules p false } } :
          LoaderState).loadedModules p = some md := hlm
    rw [hlm']
    have hen : enabledIn ({ st with config := { st.config with
        enabledModules := setEnabled st.config.enabledModules p false } } :
          LoaderState).config p = false := by
      unfold enabledIn
      show (match alookup (setEnabled st.config.enabledModules p false) p with
        | some mc => mc.enabled
        | none => false) = false
      rw [alookup_setEnabled_self st.config.enabledModules p false mc hmc]
    simp only [Option.map_some']
    rw [hen]

/-- Claim C9 at a concrete input: `alpha` is loaded and configured; after
disabling it, `getModuleInfo` still says enabled while `getStats` says
disabled. -/
theorem claim_C9_witness :
    alookup sampleLoadedState.loadedModules "alpha" =
      some { tools := [sampleTool "a1", sampleTool "a2"]
           , handlers := [("a1", 1), ("a2", 2)] } ∧
    (((getModuleInfo sampleLoadedState "alpha").map (fun i => i.enabled) =
        some true) ∧
      (updateModuleConfig none sampleLoadedState "alpha" false).1 = true ∧
      ((getModuleInfo (updateModuleConfig none sampleLoadedState
        "alpha" false).2.1 "alpha").map (fun i => i.enabled) = some true) ∧
      ((alookup (getStats (updateModuleConfig none sampleLoadedState
        "alpha" false).2.1).modules "alpha").map (fun s => s.enabled) =
          some false)) :=
  ⟨rfl, claim_C9_enabled_disagreement sampleLoadedState "alpha"
    { tools := [sampleTool "a1", sampleTool "a2"]
    , handlers := [("a1", 1), ("a2", 2)] }
    { enabled := true, description := none } none rfl rfl⟩

theorem getStats_modules_sum (st : LoaderState) :
    ((getStats st).modules.map (fun q => q.2.toolCount)).sum =
      sumToolCounts st.loadedModules := by
  show ((st.loadedModules.map (fun q =>
    (q.1, ({ toolCount := q.2.tools.length
           , enabled := enabledIn st.config q.1 } : ModuleStats)))).map
      (fun q => q.2.toolCount)).sum = _
  rw [List.map_map]
  rfl

/-- Claim C10: after `loadAllModules` completes over a load order with
pairwise-distinct provider names, `getStats().totalTools` equals the sum of
`toolCount` over `getStats().modules`; the second conjunct shows that a
duplicated name breaks the equality, because its tools enter the global
sequence once per occurrence while the `loadedModules` map keeps a single
entry. -/
theorem claim_C10_stats_sum (env : Env) (pm : Bool) (c : Config)
    (hnd : (moduleOrder c).Nodup)
    (hok : (loadAllModules env pm (initialState c)).1 = .ok ()) :
    ((getStats (loadAllModules env pm (initialState c)).2.1).totalTools =
      ((getStats (loadAllModules env pm (initialState c)).2.1).modules.map
        (fun q => q.2.toolCount)).sum) ∧
    ((loadAllModules sampleEnv true (initialState dupCfg)).1 = .ok () ∧
      ¬ (moduleOrder dupCfg).Nodup ∧
      (getStats (loadAllModules sampleEnv true
        (initialState dupCfg)).2.1).totalTools ≠
        ((getStats (loadAllModules sampleEnv true
          (initialState dupCfg)).2.1).modules.map
            (fun q => q.2.toolCount)).sum) := by
  constructor
  · have hgok := go_ok_of_loadAllModules_ok env pm (initialState c) hok
    have hcount := go_count_inv env pm (moduleOrder (initialState c).config)
      (initialState c) hnd
      (by intro m hm hc; simp [keysOf, initialState] at hc) rfl hgok
    rw [loadAllModules_state env pm (initialState c), getStats_modules_sum]
    exact hcount
  · exact ⟨by decide, by decide, by decide⟩

/-- Claim C10 at a concrete input: the distinct order `alpha, beta` loads
and the stats totals agree. -/
theorem claim_C10_witness :
    (moduleOrder sampleCfgOk).Nodup ∧
    (getStats (loadAllModules sampleEnv false
      (initialState sampleCfgOk)).2.1).totalTools =
      ((getStats (loadAllModules sampleEnv false
        (initialState sampleCfgOk)).2.1).modules.map
          (fun q => q.2.toolCount)).sum :=
  ⟨by decide,
    (claim_C10_stats_sum sampleEnv false sampleCfgOk (by decide) (by decide)).1⟩

end ToolRegistry
